import Mathlib

/-!
# Verification development for the GENIE chat gateway

Shallow embedding of `llm-service/llm/genie_client.go` (package `genie`) and of
the `/chat` handler of `llm-service/main.go`.

Conventions of the embedding

* Go strings are Lean `String`s, Go slices are `List`s (a nil slice and an empty
  slice are both `[]`), the Go map `map[string]tokenData` is a partial function
  from keys to records.
* `time.Time` values are natural numbers of nanoseconds on the monotonic clock;
  every reading of `time.Now()` is an explicit input.
* Code that talks to the network receives the behaviour of the remote side as an
  explicit input and returns the list of calls it issued next to its result.
* A Go function returning `(T, error)` returns `Except String T`; code that can
  run into a run-time panic returns `Except Failure T`.
* JSON text is represented by the value it denotes (`JSON`); turning bytes into a
  value is left to the functions of `Lib`, the typed decoding that
  `encoding/json` performs on the value is written out below.
-/

namespace Genie

/-! ## Data model (`genie_client.go`, lines 17-95) -/

/-- Go `AuthRequest`. -/
structure AuthRequest where
  appID : String
  email : String
  cunetID : String
  deriving DecidableEq, Repr

/-- Go `AuthResponse`. -/
structure AuthResponse where
  token : String
  tokenType : String
  deriving DecidableEq, Repr

/-- Go `ImageURL`. -/
structure ImageURL where
  url : String
  deriving DecidableEq, Repr

/-- Go `ContentPart`; `imageURL` is the pointer field `ImageURL *ImageURL`. -/
structure ContentPart where
  type : String
  text : String
  imageURL : Option ImageURL
  deriving DecidableEq, Repr

/-- Go `Message`. -/
structure Message where
  role : String
  content : List ContentPart
  deriving DecidableEq, Repr

/-- Go `ChatCompletionRequest`; the `float32` field `Temperature` is never set by
the code (it keeps its zero value and is dropped by `omitempty`) and is left out. -/
structure ChatCompletionRequest where
  model : String
  messages : List Message
  stream : Bool
  deriving DecidableEq, Repr

/-- One element of `ChatCompletionResponse.Choices`, i.e. its `Message` field. -/
structure Choice where
  role : String
  content : String
  deriving DecidableEq, Repr

/-- Go `ChatCompletionResponse`. -/
structure ChatCompletionResponse where
  choices : List Choice
  deriving DecidableEq, Repr

/-- Constant `authURL`. -/
def authURL : String := "https://genie.chula.ac.th/api/v1/external/auth"

/-- Constant `completionURL`. -/
def completionURL : String := "https://genie.chula.ac.th/api/v1/external/completions"

/-- Go `tokenData`; `expiresAt` in nanoseconds. -/
structure tokenData where
  token : String
  expiresAt : Nat
  deriving DecidableEq, Repr

/-- The map `Client.tokens`. -/
abbrev TokenMap := String → Option tokenData

/-- The assignment `c.tokens[key] = data`. -/
def TokenMap.insert (m : TokenMap) (key : String) (data : tokenData) : TokenMap :=
  fun k => if k = key then some data else m k

/-- Go `Client`. The lock `mu` and the single-flight group `sf` carry no data
between two calls made one after the other and are not represented. -/
structure Client where
  apiKey : String
  appID : String
  model : String
  tokens : TokenMap

/-! ## JSON values and the typed decoding of `encoding/json` -/

/-- A failed Go computation: an `error` value handed back to the caller, or a
run-time panic that unwinds the goroutine. -/
inductive Failure where
  | error (msg : String)
  | panic (msg : String)
  deriving DecidableEq, Repr

/-- A syntactically valid JSON text, by the value it denotes. Numbers are
integers: no field decoded by this program is numeric, so every number is a
type mismatch wherever it appears. The members of an object are kept in the
order of the text, repeated names included. -/
inductive JSON where
  | null
  | bool (b : Bool)
  | num (n : Int)
  | str (s : String)
  | arr (elems : List JSON)
  | obj (members : List (String × JSON))

/-- First byte of the text of a value once leading blanks are skipped, which
is what a `json.RawMessage` field holds at index 0. -/
def JSON.firstByte : JSON → Char
  | .null => 'n'
  | .bool true => 't'
  | .bool false => 'f'
  | .num n => if n < 0 then '-' else Nat.digitChar (n.toNat / 10 ^ Nat.log 10 n.toNat)
  | .str _ => '"'
  | .arr _ => '['
  | .obj _ => '{'

/-- Simple case folding of a character, as far as it bears on the match with
an ASCII struct tag: an ASCII capital folds with its small letter, U+017F (long
s) with `s` and U+212A (Kelvin sign) with `k`; no other character folds with an
ASCII one. -/
def foldRune (c : Char) : Char :=
  if c = Char.ofNat 0x17F then 's'
  else if c = Char.ofNat 0x212A then 'k'
  else c.toLower

/-- A member name is decoded into the field with struct tag `tag` when the two
are equal under simple case folding (the tags of this program are ASCII and no
two of one struct fold together, so the exact match that `encoding/json` tries
first selects the same field). -/
def keyMatches (key tag : String) : Bool :=
  key.toList.map foldRune == tag.toList.map foldRune

/-- The values of the members that are decoded into the field tagged `tag`, in
the order of the text: `encoding/json` decodes each of them into the field, one
after the other. -/
def matching (members : List (String × JSON)) (tag : String) : List JSON :=
  (members.filter (fun kv => keyMatches kv.1 tag)).map Prod.snd

/-- The error `*json.UnmarshalTypeError` (its wording is not reproduced). -/
def typeMismatch : Failure :=
  .error "json: cannot unmarshal value into Go value of another type"

/-- Decoding one value into a `string` holding `cur`: `null` leaves it as it is. -/
def decodeString (cur : String) : JSON → Except Failure String
  | .str s => .ok s
  | .null => .ok cur
  | _ => .error typeMismatch

/-- Decoding the matching members, in order, into a `string` field holding `cur`. -/
def decodeStrings (cur : String) : List JSON → Except Failure String
  | [] => .ok cur
  | v :: vs =>
    match decodeString cur v with
    | .error e => .error e
    | .ok s => decodeStrings s vs

/-- Decoding one value into the pointer field `*ImageURL` holding `cur`: `null`
sets the pointer to nil, an object is decoded into the struct pointed to (a
fresh one when the pointer is nil). -/
def decodeImageURL (cur : Option ImageURL) : JSON → Except Failure (Option ImageURL)
  | .null => .ok none
  | .obj members =>
    let url := match cur with
      | some img => img.url
      | none => ""
    match decodeStrings url (matching members "url") with
    | .error e => .error e
    | .ok url => .ok (some { url := url })
  | _ => .error typeMismatch

/-- Decoding the matching members, in order, into the pointer field `*ImageURL`. -/
def decodeImageURLs (cur : Option ImageURL) : List JSON → Except Failure (Option ImageURL)
  | [] => .ok cur
  | v :: vs =>
    match decodeImageURL cur v with
    | .error e => .error e
    | .ok img => decodeImageURLs img vs

/-- The zero `ContentPart`. -/
def ContentPart.zero : ContentPart := { type := "", text := "", imageURL := none }

/-- Decoding one value into a `ContentPart` holding `cur` (struct tags `type`,
`text`, `image_url`): `null` leaves it as it is. -/
def decodeContentPart (cur : ContentPart) : JSON → Except Failure ContentPart
  | .null => .ok cur
  | .obj members =>
    match decodeStrings cur.type (matching members "type") with
    | .error e => .error e
    | .ok type =>
      match decodeStrings cur.text (matching members "text") with
      | .error e => .error e
      | .ok text =>
        match decodeImageURLs cur.imageURL (matching members "image_url") with
        | .error e => .error e
        | .ok img => .ok { type := type, text := text, imageURL := img }
  | _ => .error typeMismatch

/-- A Go slice as the decoder sees it: its elements, and the elements of the
backing array past its length that still hold earlier values (what lies after
them is zero). -/
structure Slice (α : Type) where
  elems : List α
  spare : List α

/-- The nil slice. -/
def Slice.nil {α : Type} : Slice α := { elems := [], spare := [] }

/-- Decoding the elements of an array, in order: element `i` is decoded into
place `i` of the backing array (a zero value past its end) without clearing it
first; the first failure ends the decoding. The result is the decoded elements
and the rest of the backing array. -/
def decodeElems {α : Type} (f : α → JSON → Except Failure α) (zero : α) :
    List α → List JSON → Except Failure (List α × List α)
  | backing, [] => .ok ([], backing)
  | backing, v :: vs =>
    match f (backing.headD zero) v with
    | .error e => .error e
    | .ok a =>
      match decodeElems f zero backing.tail vs with
      | .error e => .error e
      | .ok (as, rest) => .ok (a :: as, rest)

/-- Decoding one value into a slice: `null` gives the nil slice, the empty array
a fresh empty slice, another array the decoded elements over the backing array
of the slice. -/
def decodeSlice {α : Type} (f : α → JSON → Except Failure α) (zero : α) (cur : Slice α) :
    JSON → Except Failure (Slice α)
  | .null => .ok Slice.nil
  | .arr elems =>
    match elems with
    | [] => .ok Slice.nil
    | _ :: _ =>
      match decodeElems f zero (cur.elems ++ cur.spare) elems with
      | .error e => .error e
      | .ok (as, rest) => .ok { elems := as, spare := rest }
  | _ => .error typeMismatch

/-- Text of the run-time panic raised by a field access through a nil pointer. -/
def nilDereference : String :=
  "runtime error: invalid memory address or nil pointer dereference"

/-- A variable of type `Message` as the decoder sees it: the slice `Content`
comes with its backing array. -/
structure MessageVar where
  role : String
  content : Slice ContentPart

/-- The zero `Message`. -/
def MessageVar.zero : MessageVar := { role := "", content := Slice.nil }

/-- The `Message` a variable holds. -/
def MessageVar.value (m : MessageVar) : Message :=
  { role := m.role, content := m.content.elems }

/-- Method `(*Message).UnmarshalJSON` on the receiver `m`, `data` being the value
the decoder hands over.

`json.Unmarshal(data, &aux)` (line 41) decodes into the pointer variable `aux`:
for an object it decodes the `role` members into `m.Role` through the embedded
alias and keeps the raw text of the last `content` member; any other value but
`null` is a type mismatch, returned on line 42. The decoder also hands `null` to
`UnmarshalJSON` when the target is a slice element of type `Message` (the method
has a pointer receiver and the element is addressable); `encoding/json` decodes
`null` into a pointer by setting it to nil and reports no error, so `aux` is nil
afterwards and `aux.Content` on line 45 dereferences a nil pointer. -/
def Message.UnmarshalJSON (m : MessageVar) (data : JSON) : Except Failure MessageVar :=
  match data with
  | .null => .error (.panic nilDereference)
  | .obj members =>
    match decodeStrings m.role (matching members "role") with
    | .error e => .error e
    | .ok role =>
      match (matching members "content").getLast? with
      | none => .ok { role := role, content := m.content }
      | some content =>
        if content.firstByte = '"' then
          match decodeString "" content with
          | .error e => .error e
          | .ok str =>
            .ok { role := role,
                  content := { elems := [{ type := "text", text := str, imageURL := none }],
                               spare := [] } }
        else
          match decodeSlice decodeContentPart ContentPart.zero m.content content with
          | .error e => .error e
          | .ok parts => .ok { role := role, content := parts }
  | _ => .error typeMismatch

/-- Decoding one value into a `[]Message` holding `cur`; every element goes
through `Message.UnmarshalJSON`, `null` elements included. -/
def decodeMessageSlice (cur : Slice MessageVar) : JSON → Except Failure (Slice MessageVar) :=
  decodeSlice Message.UnmarshalJSON MessageVar.zero cur

/-- The call `json.Unmarshal([]byte(msgStr), &messages)` on the nil slice
`messages` (`main.go`, line 81). -/
def decodeMessages (v : JSON) : Except Failure (List Message) :=
  match decodeMessageSlice Slice.nil v with
  | .error e => .error e
  | .ok s => .ok (s.elems.map MessageVar.value)

/-- Outcome of `http.DefaultClient.Do` together with what decoding the body
into `α` gives: a transport error, or a response with its status code, status
line, body text and decoded body. -/
inductive HttpResult (α : Type) where
  | transportError (err : String)
  | response (statusCode : Nat) (status : String) (body : String) (decoded : Except String α)

/-- The request sent to `authURL`. -/
structure AuthCall where
  url : String
  apiKey : String
  payload : AuthRequest
  deriving DecidableEq, Repr

/-- The request sent to `completionURL`. -/
structure CompletionCall where
  url : String
  authorization : String
  payload : ChatCompletionRequest
  deriving DecidableEq, Repr

/-- What surrounds one call of `getToken` or `Chat`: the time `now` of the cache
lookup (the reading of `time.Now()` on line 121), the time `elapsed` from
there to the reading of `time.Now()` on line 163, made once the authentication
answer has been received and decoded, and the answers of the two remote
endpoints. -/
structure Env where
  now : Nat
  elapsed : Nat
  auth : AuthCall → HttpResult AuthResponse
  completion : CompletionCall → HttpResult ChatCompletionResponse

/-- The duration `4 * time.Hour` in nanoseconds. -/
def fourHours : Nat := 4 * (60 * 60 * 1000000000)

/-- The key built on line 117: `fmt.Sprintf("%s:%s", email, cunetId)`. -/
def tokenKey (email cunetId : String) : String :=
  email ++ ":" ++ cunetId

/-- Result of `getToken`: returned values, client afterwards, auth calls issued. -/
structure TokenOutcome where
  result : Except String String
  client : Client
  authCalls : List AuthCall

/-- Lines 119-126: the token of the record stored under `key`, when there is one
and `now` is before its `expiresAt`. -/
def cachedToken (c : Client) (now : Nat) (key : String) : Option String :=
  match c.tokens key with
  | some data => if now < data.expiresAt then some data.token else none
  | none => none

/-- Lines 129-143: the authentication request built for a caller. `json.Marshal`
of three strings and `http.NewRequest` on a constant URL do not fail. -/
def authCallFor (c : Client) (email cunetId : String) : AuthCall :=
  { url := authURL, apiKey := c.apiKey,
    payload := { appID := c.appID, email := email, cunetID := cunetId } }

/-- Lines 128-168: the function handed to `sf.Do`, run by the calling goroutine
(no other call for `key` is in flight). -/
def fetchToken (c : Client) (env : Env) (key email cunetId : String) : TokenOutcome :=
  let call := authCallFor c email cunetId
  match env.auth call with
  | .transportError err => { result := .error err, client := c, authCalls := [call] }
  | .response statusCode _ _ decoded =>
    if statusCode ≠ 200 then
      { result := .error "GENIE auth failed", client := c, authCalls := [call] }
    else
      match decoded with
      | .error err =>
        { result := .error ("failed to decode auth response: " ++ err), client := c,
          authCalls := [call] }
      | .ok res =>
        let data : tokenData :=
          { token := res.token, expiresAt := env.now + env.elapsed + fourHours }
        { result := .ok res.token,
          client := { c with tokens := c.tokens.insert key data },
          authCalls := [call] }

/-- Method `(*Client).getToken`. -/
def getToken (c : Client) (env : Env) (email cunetId : String) : TokenOutcome :=
  let key := tokenKey email cunetId
  match cachedToken c env.now key with
  | some token => { result := .ok token, client := c, authCalls := [] }
  | none => fetchToken c env key email cunetId

/-- Lines 185-195: the completion request built from the messages and the token. -/
def completionCallFor (c : Client) (token : String) (messages : List Message) : CompletionCall :=
  { url := completionURL, authorization := "Bearer " ++ token,
    payload := { model := c.model, messages := messages, stream := false } }

/-- Result of `Chat`: returned values, client afterwards, calls issued. -/
structure ChatOutcome where
  result : Except String String
  client : Client
  authCalls : List AuthCall
  completionCalls : List CompletionCall

/-- Method `(*Client).Chat`. -/
def Chat (c : Client) (env : Env) (messages : List Message) (email cunetId : String) :
    ChatOutcome :=
  let t := getToken c env email cunetId
  match t.result with
  | .error err =>
    { result := .error err, client := t.client, authCalls := t.authCalls, completionCalls := [] }
  | .ok token =>
    let call := completionCallFor c token messages
    let result : Except String String :=
      match env.completion call with
      | .transportError err => .error err
      | .response statusCode status body decoded =>
        if statusCode ≠ 200 then
          .error ("GENIE completion failed: " ++ status ++ " - " ++ body)
        else
          match decoded with
          | .error err => .error ("failed to decode response: " ++ err)
          | .ok res =>
            match res.choices with
            | [] => .error "empty response"
            | first :: _ => .ok first.content
    { result := result, client := t.client, authCalls := t.authCalls, completionCalls := [call] }

/-! ## Vocabulary of the statements -/

/-- The store holds a record for `key` that is valid at time `now`. -/
def hasValid (c : Client) (now : Nat) (key : String) : Prop :=
  ∃ data, c.tokens key = some data ∧ now < data.expiresAt

instance (c : Client) (now : Nat) (key : String) : Decidable (hasValid c now key) :=
  match h : c.tokens key with
  | none => isFalse (by rintro ⟨data, hd, -⟩; rw [h] at hd; cases hd)
  | some data =>
    if hv : now < data.expiresAt then isTrue ⟨data, h, hv⟩
    else isFalse (by rintro ⟨d, hd, hv2⟩; rw [h] at hd; cases hd; exact hv hv2)

/-- The authentication attempt failed: transport error, status other than 200,
or a body that does not decode. -/
def authFailed : HttpResult AuthResponse → Prop
  | .transportError _ => True
  | .response statusCode _ _ decoded =>
    statusCode ≠ 200 ∨ ∃ err, decoded = .error err

instance (r : HttpResult AuthResponse) : Decidable (authFailed r) :=
  match r with
  | .transportError _ => isTrue trivial
  | .response statusCode _ _ (.error err) => isTrue (Or.inr ⟨err, rfl⟩)
  | .response statusCode _ _ (.ok _) =>
    if hs : statusCode = 200 then
      isFalse (by rintro (h | ⟨err, h⟩); exact h hs; cases h)
    else isTrue (Or.inl hs)

end Genie

namespace Handler

open Genie

/-! ## The `/chat` handler (`main.go`, lines 51-158) -/

/-- Go `ChatRequest`. -/
structure ChatRequest where
  messages : List Message
  cunetId : String
  deriving DecidableEq, Repr

/-- Decoding the `messages` members, in order, into the field `Messages`
holding `cur`. An error or a panic out of `UnmarshalJSON` ends the decoding at
once; a value that is neither an array nor `null` is a type mismatch, which is
only noted (`noted`) while the decoding goes on. -/
def decodeMessagesMembers (cur : Slice MessageVar) (noted : Bool) :
    List JSON → Except Failure (Slice MessageVar × Bool)
  | [] => .ok (cur, noted)
  | v :: vs =>
    match v with
    | .null => decodeMessagesMembers Slice.nil noted vs
    | .arr elems =>
      match decodeMessageSlice cur (.arr elems) with
      | .error e => .error e
      | .ok next => decodeMessagesMembers next noted vs
    | _ => decodeMessagesMembers cur true vs

/-- Decoding into the zero `ChatRequest` on line 63. The `messages` members are
taken first: they are the only ones whose decoding can end early (an error or a
panic out of `UnmarshalJSON`), while a type mismatch, on `messages` or on
`cunet_id`, is only reported once the whole value has been read. -/
def decodeChatRequest : JSON → Except Failure ChatRequest
  | .null => .ok { messages := [], cunetId := "" }
  | .obj members =>
    match decodeMessagesMembers Slice.nil false (matching members "messages") with
    | .error e => .error e
    | .ok (messages, noted) =>
      if noted then .error typeMismatch
      else
        match decodeStrings "" (matching members "cunet_id") with
        | .error e => .error e
        | .ok cunetId =>
          .ok { messages := messages.elems.map MessageVar.value, cunetId := cunetId }
  | _ => .error typeMismatch

/-- Bytes of an uploaded file. -/
abbrev Bytes := List Nat

/-- The library functions the handler applies to raw bytes. -/
structure Lib where
  -- reading the first JSON value of a stream, as `json.Decoder.Decode` does
  decodeFirstValue : String → Except String JSON
  -- reading a whole text as one JSON value, as `json.Unmarshal` does
  parseValue : String → Except String JSON
  -- function `http.DetectContentType`
  detectContentType : Bytes → String
  -- function `base64.StdEncoding.EncodeToString`
  base64 : Bytes → String

/-- Outcome of `r.FormFile(key)` followed by `io.Copy(buf, file)`. -/
inductive FormFile where
  | missing
  | failed (err : String)
  | file (content : Except String Bytes)

/-- A parsed multipart form: `value` is `r.FormValue` (`""` for an absent field). -/
structure Form where
  value : String → String
  file : String → FormFile

/-- An inbound request; `form` is the outcome of `r.ParseMultipartForm(32 << 20)`. -/
structure Request where
  method : String
  contentType : String
  body : String
  form : Except String Form

/-- What the client gets back: a response with status and payload, or nothing
when the handler panicked before writing (the server drops the connection). -/
inductive Reply where
  | response (status : Nat) (payload : String)
  | aborted (panicMsg : String)
  deriving DecidableEq, Repr

/-- Go `strings.Contains`. -/
def contains (s sub : String) : Bool :=
  s.toList.tails.any (fun t => sub.toList.isPrefixOf t)

/-- Closure `appendPart` (lines 88-102); the captured variable `messages` is
passed in and the updated slice is returned. -/
def appendPart (messages : List Message) (part : ContentPart) : List Message :=
  if messages.length = 0 then
    messages ++ [{ role := "user", content := [part] }]
  else
    let lastIdx := messages.length - 1
    match messages[lastIdx]? with
    | none => messages
    | some lastMsg =>
      if lastMsg.role ≠ "user" then
        messages ++ [{ role := "user", content := [part] }]
      else
        messages.set lastIdx { lastMsg with content := lastMsg.content ++ [part] }

/-- The calls `appendPart(part)` made one after the other by the upload loop. -/
def appendParts (messages : List Message) (parts : List ContentPart) : List Message :=
  parts.foldl appendPart messages

/-- Lines 124-136: the part built from the bytes of an uploaded file. -/
def uploadPart (lib : Lib) (content : Bytes) : ContentPart :=
  { type := "image_url", text := "",
    imageURL := some { url := "data:" ++ lib.detectContentType content ++ ";base64,"
                              ++ lib.base64 content } }

/-- One round of the loop on lines 105-139. -/
def processUpload (lib : Lib) (form : Form) (messages : List Message) (key : String) :
    List Message :=
  match form.file key with
  | .missing => messages
  | .failed _ => messages
  | .file (.error _) => messages
  | .file (.ok content) => appendPart messages (uploadPart lib content)

/-- The loop on lines 105-139 over the keys `image` and `file`. -/
def processUploads (lib : Lib) (form : Form) (messages : List Message) : List Message :=
  ["image", "file"].foldl (processUpload lib form) messages

/-- The parts the upload loop produces, in processing order. -/
def uploadedParts (lib : Lib) (form : Form) : List ContentPart :=
  ["image", "file"].filterMap fun key =>
    match form.file key with
    | .file (.ok content) => some (uploadPart lib content)
    | _ => none

/-- Text written by `http.Error`. -/
def httpError (status : Nat) (msg : String) : Reply :=
  .response status (msg ++ "\n")

/-- The reply to a failed decoding: an error is answered with status 400, a
panic unwinds the handler. -/
def decodeFailure (e : Failure) (msg : String → String) : Reply :=
  match e with
  | .error err => httpError 400 (msg err)
  | .panic p => .aborted p

/-- Lines 57-143: the messages, email and user handle read from the request, or
the reply that ends the handler early. -/
def readRequest (lib : Lib) (r : Request) : Except Reply (List Message × String × String) :=
  if contains r.contentType "application/json" then
    match lib.decodeFirstValue r.body with
    | .error err => .error (httpError 400 err)
    | .ok v =>
      match decodeChatRequest v with
      | .error e => .error (decodeFailure e id)
      | .ok req => .ok (req.messages, req.cunetId ++ "@student.chula.ac.th", req.cunetId)
  else if contains r.contentType "multipart/form-data" then
    match r.form with
    | .error _ => .error (httpError 400 "file too large")
    | .ok form =>
      let email := form.value "cunet_id" ++ "@student.chula.ac.th"
      let cunetId := form.value "cunet_id"
      let msgStr := form.value "messages"
      let decoded : Except Reply (List Message) :=
        if msgStr ≠ "" then
          match lib.parseValue msgStr with
          | .error _ => .error (httpError 400 "invalid messages json")
          | .ok v =>
            match decodeMessages v with
            | .error e => .error (decodeFailure e (fun _ => "invalid messages json"))
            | .ok messages => .ok messages
        else .ok []
      match decoded with
      | .error reply => .error reply
      | .ok messages => .ok (processUploads lib form messages, email, cunetId)
  else
    .error (httpError 400 "unsupported content type")

/-- Result of one run of the handler. -/
structure HandlerOutcome where
  reply : Reply
  client : Client
  authCalls : List AuthCall
  completionCalls : List CompletionCall

/-- The function registered for `/chat` (lines 51-158). `encode` stands for
`json.NewEncoder(w).Encode` on a string. -/
def handle (lib : Lib) (encode : String → String) (c : Client) (env : Env) (r : Request) :
    HandlerOutcome :=
  if r.method ≠ "POST" then
    { reply := httpError 405 "method not allowed", client := c, authCalls := [],
      completionCalls := [] }
  else
    match readRequest lib r with
    | .error reply => { reply := reply, client := c, authCalls := [], completionCalls := [] }
    | .ok (messages, email, cunetId) =>
      if cunetId = "" then
        { reply := httpError 400 "missing required fields: cunet_id", client := c,
          authCalls := [], completionCalls := [] }
      else
        let o := Chat c env messages email cunetId
        match o.result with
        | .error err =>
          { reply := httpError 500 err, client := o.client, authCalls := o.authCalls,
            completionCalls := o.completionCalls }
        | .ok res =>
          { reply := .response 200 (encode res), client := o.client, authCalls := o.authCalls,
            completionCalls := o.completionCalls }

/-- The email the handler derives from a user handle (lines 68 and 77). -/
def deriveEmail (cunetId : String) : String :=
  cunetId ++ "@student.chula.ac.th"

/-- The cache key `getToken` builds for a request of the handler. -/
def handlerKey (cunetId : String) : String :=
  tokenKey (deriveEmail cunetId) cunetId

/-- Whether the list ends in a message whose role is exactly `"user"`. -/
def endsInUser (messages : List Message) : Prop :=
  ∃ m, messages.getLast? = some m ∧ m.role = "user"

instance (messages : List Message) : Decidable (endsInUser messages) :=
  match h : messages.getLast? with
  | none => isFalse (by rintro ⟨m, hm, -⟩; rw [h] at hm; cases hm)
  | some m =>
    if hr : m.role = "user" then isTrue ⟨m, h, hr⟩
    else isFalse (by rintro ⟨m2, hm, hr2⟩; rw [h] at hm; cases hm; exact hr hr2)

end Handler

/-! # Concrete instances used to exercise the statements -/

namespace Sample

open Genie Handler

/-- A client with an empty token store. -/
def client : Client :=
  { apiKey := "secret", appID := "app", model := "genie-1", tokens := fun _ => none }

/-- A client whose store holds, for the handle `a`, a record that expires at time 10. -/
def cached : Client :=
  { client with
    tokens := TokenMap.insert client.tokens (handlerKey "a") { token := "old", expiresAt := 10 } }

/-- A remote side that accepts every authentication with the token `tok` and
answers every completion with two choices; the clock advances by one
nanosecond between the lookup and the write. -/
def env : Env :=
  { now := 0, elapsed := 1,
    auth := fun _ => .response 200 "200 OK" "" (.ok { token := "tok", tokenType := "Bearer" }),
    completion := fun _ =>
      .response 200 "200 OK" ""
        (.ok { choices := [{ role := "assistant", content := "hello" },
                           { role := "assistant", content := "ignored" }] }) }

/-- The same remote side at time 10, the expiry of the record held by `cached`. -/
def envAtExpiry : Env := { env with now := 10 }

/-- The same remote side four hours after `envAtExpiry`. -/
def envLater : Env := { env with now := 10 + fourHours }

/-- A remote side that rejects every authentication. -/
def envRejecting : Env :=
  { env with auth := fun _ => .response 401 "401 Unauthorized" "" (.error "no body") }

/-- A text part. -/
def hello : ContentPart := { type := "text", text := "hello", imageURL := none }

/-- An attachment part. -/
def image : ContentPart := { type := "image_url", text := "", imageURL := some { url := "data:a" } }

/-- Another attachment part. -/
def file : ContentPart := { type := "image_url", text := "", imageURL := some { url := "data:b" } }

/-- The body `\x7b"messages":[null]\x7d`: a message list holding `null`, no `cunet_id`. -/
def nullMessageBody : String := "\x7b\"messages\":[null]\x7d"

/-- Library functions that read the text `nullMessageBody` as the object it
denotes, the text `[null]` as the array it denotes, and know no other text. -/
def lib : Lib :=
  { decodeFirstValue := fun s =>
      if s = nullMessageBody then .ok (.obj [("messages", .arr [.null])])
      else .error "unexpected end of JSON input",
    parseValue := fun s =>
      if s = "[null]" then .ok (.arr [.null]) else .error "unexpected end of JSON input",
    detectContentType := fun _ => "application/octet-stream",
    base64 := fun _ => "" }

/-- A JSON request with the body `nullMessageBody`. -/
def request : Request :=
  { method := "POST", contentType := "application/json", body := nullMessageBody,
    form := .error "request Content-Type isn't multipart/form-data" }

end Sample

/-! # Theorems -/

namespace Handler

open Genie

/-! ## Attachment merge -/

theorem appendPart_nil (p : ContentPart) :
    appendPart [] p = [{ role := "user", content := [p] }] := by
  simp [appendPart]

theorem appendPart_snoc (init : List Message) (l : Message) (p : ContentPart) :
    appendPart (init ++ [l]) p =
      if l.role = "user" then init ++ [{ l with content := l.content ++ [p] }]
      else init ++ [l] ++ [{ role := "user", content := [p] }] := by
  unfold appendPart
  simp only [List.length_append, List.length_singleton, Nat.add_one_ne_zero, if_false,
    Nat.add_sub_cancel]
  rw [List.getElem?_append_right (le_refl _)]
  simp only [Nat.sub_self, List.getElem?_cons_zero]
  by_cases h : l.role = "user"
  · simp [h, List.set_append_right]
  · simp [h]

theorem endsInUser_nil : ¬ endsInUser [] := by
  rintro ⟨m, hm, -⟩
  simp at hm

theorem endsInUser_snoc (init : List Message) (l : Message) :
    endsInUser (init ++ [l]) ↔ l.role = "user" := by
  unfold endsInUser
  simp

theorem appendPart_of_not_endsInUser (ms : List Message) (p : ContentPart)
    (h : ¬ endsInUser ms) : appendPart ms p = ms ++ [{ role := "user", content := [p] }] := by
  rcases List.eq_nil_or_concat' ms with rfl | ⟨init, l, rfl⟩
  · simp [appendPart_nil]
  · rw [endsInUser_snoc] at h
    simp [appendPart_snoc, h]

theorem appendParts_snoc_user (ps : List ContentPart) (init : List Message) (l : Message)
    (h : l.role = "user") :
    appendParts (init ++ [l]) ps = init ++ [{ l with content := l.content ++ ps }] := by
  induction ps generalizing l with
  | nil => simp [appendParts]
  | cons p ps ih =>
    have step : appendParts (init ++ [l]) (p :: ps)
        = appendParts (init ++ [{ l with content := l.content ++ [p] }]) ps := by
      simp [appendParts, appendPart_snoc, h]
    rw [step, ih { l with content := l.content ++ [p] } h]
    simp

theorem appendParts_of_not_endsInUser (ms : List Message) (p : ContentPart)
    (ps : List ContentPart) (h : ¬ endsInUser ms) :
    appendParts ms (p :: ps) = ms ++ [{ role := "user", content := p :: ps }] := by
  have step : appendParts ms (p :: ps)
      = appendParts (ms ++ [{ role := "user", content := [p] }]) ps := by
    simp [appendParts, appendPart_of_not_endsInUser ms p h]
  rw [step, appendParts_snoc_user ps ms { role := "user", content := [p] } rfl]
  simp

/-- The upload loop of the handler is a run of `appendPart` over the parts it
produces, image first. -/
theorem processUploads_eq (lib : Lib) (form : Form) (ms : List Message) :
    processUploads lib form ms = appendParts ms (uploadedParts lib form) := by
  unfold processUploads uploadedParts appendParts processUpload
  simp only [List.foldl_cons, List.foldl_nil, List.filterMap_cons, List.filterMap_nil]
  rcases hi : form.file "image" with _ | _ | (_ | _) <;>
    rcases hf : form.file "file" with _ | _ | (_ | _) <;> simp

/-- C5. One call of `appendPart`: the part is added at the end of the content of
the last message, the other messages being kept, exactly when the list ends in
a message of role `"user"`; the list followed by one new `"user"` message
holding just the part is produced exactly when it does not (empty list or
another last role). -/
theorem appendPart_spec (ms : List Message) (p : ContentPart) :
    (endsInUser ms ↔
      ∃ init l, ms = init ++ [l] ∧ l.role = "user" ∧
        appendPart ms p = init ++ [{ role := l.role, content := l.content ++ [p] }]) ∧
    (¬ endsInUser ms ↔ appendPart ms p = ms ++ [{ role := "user", content := [p] }]) := by
  rcases List.eq_nil_or_concat' ms with rfl | ⟨init, l, rfl⟩
  · refine ⟨⟨fun h => absurd h endsInUser_nil, ?_⟩, ⟨fun _ => by simp [appendPart_nil], fun _ => endsInUser_nil⟩⟩
    rintro ⟨init, l, h, -⟩
    simp at h
  · rw [endsInUser_snoc]
    by_cases h : l.role = "user"
    · refine ⟨⟨fun _ => ⟨init, l, rfl, h, by simp [appendPart_snoc, h]⟩, fun _ => h⟩, ?_⟩
      refine ⟨fun hn => absurd h hn, fun he => ?_⟩
      have hl := congrArg List.length he
      simp [appendPart_snoc, h] at hl
    · refine ⟨⟨fun hu => absurd hu h, ?_⟩, ⟨fun _ => by simp [appendPart_snoc, h], fun _ => h⟩⟩
      rintro ⟨init2, l2, he, hr, -⟩
      obtain ⟨-, hl⟩ := List.append_inj' he rfl
      simp only [List.cons.injEq, and_true] at hl
      exact absurd (hl ▸ hr) h

/-- C6. A non-empty run of `appendPart` over the parts `ps`, in order: when the
list ends in a `"user"` message, all of `ps` is added, in order, at the end of
that message and nothing else changes; otherwise the list is followed by one
new `"user"` message whose content is `ps`; the message count grows by at most
one. -/
theorem appendParts_spec (ms : List Message) (ps : List ContentPart) (hps : ps ≠ []) :
    (∀ init l, ms = init ++ [l] → l.role = "user" →
      appendParts ms ps = init ++ [{ role := l.role, content := l.content ++ ps }]) ∧
    (¬ endsInUser ms → appendParts ms ps = ms ++ [{ role := "user", content := ps }]) ∧
    (appendParts ms ps).length ≤ ms.length + 1 := by
  obtain ⟨p, ps, rfl⟩ := List.exists_cons_of_ne_nil hps
  have h1 : ∀ init l, ms = init ++ [l] → l.role = "user" →
      appendParts ms (p :: ps) = init ++ [{ role := l.role, content := l.content ++ (p :: ps) }] := by
    rintro init l rfl hl
    exact appendParts_snoc_user (p :: ps) init l hl
  have h2 : ¬ endsInUser ms →
      appendParts ms (p :: ps) = ms ++ [{ role := "user", content := p :: ps }] :=
    appendParts_of_not_endsInUser ms p ps
  refine ⟨h1, h2, ?_⟩
  by_cases hu : endsInUser ms
  · rcases List.eq_nil_or_concat' ms with rfl | ⟨init, l, rfl⟩
    · exact absurd hu endsInUser_nil
    · rw [h1 init l rfl ((endsInUser_snoc init l).1 hu)]
      simp
  · rw [h2 hu]
    simp

end Handler

namespace Genie

/-! ## Token cache -/

theorem cachedToken_eq_some_iff (c : Client) (now : Nat) (key token : String) :
    cachedToken c now key = some token ↔
      ∃ data, c.tokens key = some data ∧ now < data.expiresAt ∧ data.token = token := by
  unfold cachedToken
  cases h : c.tokens key with
  | none => simp
  | some data =>
    by_cases hv : now < data.expiresAt <;> simp [hv]

theorem cachedToken_eq_none_iff (c : Client) (now : Nat) (key : String) :
    cachedToken c now key = none ↔ ¬ hasValid c now key := by
  unfold cachedToken hasValid
  cases h : c.tokens key with
  | none => simp
  | some data =>
    by_cases hv : now < data.expiresAt <;> simp [hv]

theorem fetchToken_authCalls (c : Client) (env : Env) (key email cunetId : String) :
    (fetchToken c env key email cunetId).authCalls = [authCallFor c email cunetId] := by
  unfold fetchToken
  dsimp only
  cases env.auth (authCallFor c email cunetId) with
  | transportError err => rfl
  | response statusCode status body decoded =>
    by_cases hs : statusCode = 200
    · cases decoded <;> simp [hs]
    · simp [hs]

theorem getToken_of_hasValid (c : Client) (env : Env) (email cunetId : String) (data : tokenData)
    (hd : c.tokens (tokenKey email cunetId) = some data) (hv : env.now < data.expiresAt) :
    getToken c env email cunetId = { result := .ok data.token, client := c, authCalls := [] } := by
  have h : cachedToken c env.now (tokenKey email cunetId) = some data.token :=
    (cachedToken_eq_some_iff _ _ _ _).2 ⟨data, hd, hv, rfl⟩
  simp [getToken, h]

theorem getToken_of_not_hasValid (c : Client) (env : Env) (email cunetId : String)
    (h : ¬ hasValid c env.now (tokenKey email cunetId)) :
    getToken c env email cunetId = fetchToken c env (tokenKey email cunetId) email cunetId := by
  have hc := (cachedToken_eq_none_iff c env.now (tokenKey email cunetId)).2 h
  simp [getToken, hc]

theorem fetchToken_result_congr (c c2 : Client) (env : Env) (key key2 email cunetId : String)
    (hk : c2.apiKey = c.apiKey) (ha : c2.appID = c.appID) :
    (fetchToken c2 env key2 email cunetId).result = (fetchToken c env key email cunetId).result := by
  have hcall : authCallFor c2 email cunetId = authCallFor c email cunetId := by
    simp [authCallFor, hk, ha]
  unfold fetchToken
  rw [hcall]
  dsimp only
  cases env.auth (authCallFor c email cunetId) with
  | transportError err => rfl
  | response statusCode status body decoded =>
    by_cases hs : statusCode = 200
    · cases decoded <;> simp [hs]
    · simp [hs]

theorem fetchToken_of_authFailed (c : Client) (env : Env) (key email cunetId : String)
    (hf : authFailed (env.auth (authCallFor c email cunetId))) :
    (∃ err, (fetchToken c env key email cunetId).result = .error err) ∧
      (fetchToken c env key email cunetId).client = c := by
  unfold fetchToken
  dsimp only
  cases hr : env.auth (authCallFor c email cunetId) with
  | transportError err => exact ⟨⟨err, rfl⟩, rfl⟩
  | response statusCode status body decoded =>
    rw [hr] at hf
    by_cases hs : statusCode = 200
    · rcases hf with hne | ⟨err, rfl⟩
      · exact absurd hs hne
      · simp [hs]
    · simp [hs]

theorem fetchToken_of_success (c : Client) (env : Env) (key email cunetId status body : String)
    (res : AuthResponse)
    (hr : env.auth (authCallFor c email cunetId) = .response 200 status body (.ok res)) :
    fetchToken c env key email cunetId =
      { result := .ok res.token,
        client := { c with
          tokens := (c.tokens.insert key ⟨res.token, env.now + env.elapsed + fourHours⟩) },
        authCalls := [authCallFor c email cunetId] } := by
  unfold fetchToken
  dsimp only
  rw [hr]
  simp

theorem hasValid_mono (c : Client) (now later : Nat) (key : String) (hle : now ≤ later)
    (h : ¬ hasValid c now key) : ¬ hasValid c later key := by
  rintro ⟨data, hd, hv⟩
  exact h ⟨data, hd, by omega⟩

/-- C1. `getToken` returns the token of the stored record, issues no
authentication call and leaves the token map as it is, exactly when the map
holds a record for the key with `now < expiresAt`. In every other case (no
record, or `now ≥ expiresAt`) exactly one authentication call is issued, for the
identity asked for, and what is returned is what that call gives, whatever the
store holds. -/
theorem getToken_cache_spec (c : Client) (env : Env) (email cunetId : String) :
    (hasValid c env.now (tokenKey email cunetId) ↔
      ∃ data, c.tokens (tokenKey email cunetId) = some data ∧
        (getToken c env email cunetId).result = .ok data.token ∧
        (getToken c env email cunetId).authCalls = [] ∧
        (getToken c env email cunetId).client.tokens = c.tokens) ∧
    (¬ hasValid c env.now (tokenKey email cunetId) →
      (getToken c env email cunetId).authCalls = [authCallFor c email cunetId] ∧
      ((getToken c env email cunetId).authCalls).length = 1 ∧
      ∀ c2 : Client, c2.apiKey = c.apiKey → c2.appID = c.appID →
        ¬ hasValid c2 env.now (tokenKey email cunetId) →
        (getToken c2 env email cunetId).result = (getToken c env email cunetId).result) := by
  have miss : ¬ hasValid c env.now (tokenKey email cunetId) →
      (getToken c env email cunetId).authCalls = [authCallFor c email cunetId] := by
    intro h
    rw [getToken_of_not_hasValid c env email cunetId h, fetchToken_authCalls]
  refine ⟨⟨?_, ?_⟩, fun h => ⟨miss h, by rw [miss h]; rfl, ?_⟩⟩
  · rintro ⟨data, hd, hv⟩
    refine ⟨data, hd, ?_⟩
    rw [getToken_of_hasValid c env email cunetId data hd hv]
    exact ⟨rfl, rfl, rfl⟩
  · rintro ⟨data, hd, -, hcalls, -⟩
    by_contra hn
    rw [miss hn] at hcalls
    cases hcalls
  · intro c2 hk ha h2
    rw [getToken_of_not_hasValid c env email cunetId h,
      getToken_of_not_hasValid c2 env email cunetId h2]
    exact fetchToken_result_congr c c2 env _ _ email cunetId hk ha

/-- C3. When no valid record is stored and the authentication attempt fails
(transport error, status other than 200, undecodable body), `getToken` returns
an error and the client, token map included, is what it was; the next call
for the same identity, at any later time and whatever the remote side then
answers, issues the authentication call again and returns the token of a
successful answer. -/
theorem getToken_failure_spec (c : Client) (env : Env) (email cunetId : String)
    (hmiss : ¬ hasValid c env.now (tokenKey email cunetId))
    (hfail : authFailed (env.auth (authCallFor c email cunetId))) :
    (∃ err, (getToken c env email cunetId).result = .error err) ∧
    (getToken c env email cunetId).client.tokens = c.tokens ∧
    (getToken c env email cunetId).authCalls = [authCallFor c email cunetId] ∧
    ∀ env2 : Env, env.now ≤ env2.now →
      (getToken (getToken c env email cunetId).client env2 email cunetId).authCalls
        = [authCallFor c email cunetId] ∧
      ∀ status body res,
        env2.auth (authCallFor c email cunetId) = .response 200 status body (.ok res) →
        (getToken (getToken c env email cunetId).client env2 email cunetId).result
          = .ok res.token := by
  rw [getToken_of_not_hasValid c env email cunetId hmiss]
  obtain ⟨herr, hclient⟩ := fetchToken_of_authFailed c env (tokenKey email cunetId) email cunetId hfail
  refine ⟨herr, by rw [hclient], fetchToken_authCalls _ _ _ _ _, ?_⟩
  intro env2 hle
  rw [hclient]
  have h2 := hasValid_mono c env.now env2.now _ hle hmiss
  rw [getToken_of_not_hasValid c env2 email cunetId h2]
  refine ⟨fetchToken_authCalls _ _ _ _ _, ?_⟩
  intro status body res hr
  rw [fetchToken_of_success c env2 _ email cunetId status body res hr]

/-- C4 (amended). When no valid record is stored at the time `now` of the lookup
and the authentication call succeeds with token `t`, `getToken` returns `t` and
the token map becomes the previous one with the key mapped to the record
`(t, now + elapsed + 4h)`, where `now + elapsed` is the reading of the clock
when the record is written; every other key keeps its entry. A later
`getToken` for the same identity at time `later` issues no authentication call
exactly when `later < now + elapsed + 4h`, and then returns `t`. -/
theorem getToken_success_spec (c : Client) (env : Env) (email cunetId status body : String)
    (res : AuthResponse)
    (hmiss : ¬ hasValid c env.now (tokenKey email cunetId))
    (hok : env.auth (authCallFor c email cunetId) = .response 200 status body (.ok res)) :
    (getToken c env email cunetId).result = .ok res.token ∧
    (getToken c env email cunetId).client.tokens (tokenKey email cunetId)
      = some ⟨res.token, env.now + env.elapsed + fourHours⟩ ∧
    (∀ k, k ≠ tokenKey email cunetId →
      (getToken c env email cunetId).client.tokens k = c.tokens k) ∧
    ∀ env2 : Env,
      ((getToken (getToken c env email cunetId).client env2 email cunetId).authCalls = [] ↔
        env2.now < env.now + env.elapsed + fourHours) ∧
      (env2.now < env.now + env.elapsed + fourHours →
        (getToken (getToken c env email cunetId).client env2 email cunetId).result
          = .ok res.token) := by
  rw [getToken_of_not_hasValid c env email cunetId hmiss,
    fetchToken_of_success c env _ email cunetId status body res hok]
  have hkey : (c.tokens.insert (tokenKey email cunetId)
      ⟨res.token, env.now + env.elapsed + fourHours⟩) (tokenKey email cunetId)
      = some ⟨res.token, env.now + env.elapsed + fourHours⟩ := by
    simp [TokenMap.insert]
  refine ⟨rfl, hkey, fun k hk => by simp [TokenMap.insert, hk], ?_⟩
  intro env2
  by_cases hlt : env2.now < env.now + env.elapsed + fourHours
  · have hg := getToken_of_hasValid
      { c with tokens := (c.tokens.insert (tokenKey email cunetId)
          ⟨res.token, env.now + env.elapsed + fourHours⟩) } env2 email cunetId
      ⟨res.token, env.now + env.elapsed + fourHours⟩ hkey hlt
    rw [hg]
    simp [hlt]
  · have hnv : ¬ hasValid { c with tokens := (c.tokens.insert (tokenKey email cunetId)
          ⟨res.token, env.now + env.elapsed + fourHours⟩) } env2.now (tokenKey email cunetId) := by
      rintro ⟨data, hd, hv⟩
      have hd2 := hkey.symm.trans hd
      cases hd2
      exact hlt hv
    rw [getToken_of_not_hasValid _ env2 email cunetId hnv, fetchToken_authCalls]
    simp [hlt]

end Genie

namespace Sample

open Genie Handler

theorem client_not_hasValid (now : Nat) (key : String) : ¬ hasValid client now key := by
  rintro ⟨data, hd, -⟩
  cases hd

theorem cached_not_hasValid_at_expiry :
    ¬ hasValid cached envAtExpiry.now (tokenKey (deriveEmail "a") "a") := by
  decide

end Sample

namespace Genie

/-- C4 (as stated, refuted). The store holds a record that expires at time 10;
the lookup is made at time 10, the authentication succeeds with `tok` and the
record is written one nanosecond later. The stored expiry is not `10 + 4h`, and
a call at time `10 + 4h` is still served from the store without an
authentication call. -/
theorem getToken_expiry_counterexample :
    ¬ hasValid Sample.cached Sample.envAtExpiry.now (tokenKey "a@student.chula.ac.th" "a") ∧
    (getToken Sample.cached Sample.envAtExpiry "a@student.chula.ac.th" "a").result = .ok "tok" ∧
    (getToken Sample.cached Sample.envAtExpiry "a@student.chula.ac.th" "a").client.tokens
        (tokenKey "a@student.chula.ac.th" "a")
      ≠ some ⟨"tok", Sample.envAtExpiry.now + fourHours⟩ ∧
    ¬ (Sample.envLater.now < Sample.envAtExpiry.now + fourHours) ∧
    (getToken (getToken Sample.cached Sample.envAtExpiry "a@student.chula.ac.th" "a").client
        Sample.envLater "a@student.chula.ac.th" "a").authCalls = [] ∧
    (getToken (getToken Sample.cached Sample.envAtExpiry "a@student.chula.ac.th" "a").client
        Sample.envLater "a@student.chula.ac.th" "a").result = .ok "tok" := by
  exact ⟨Sample.cached_not_hasValid_at_expiry, rfl, by decide, by decide, by decide, rfl⟩

end Genie

namespace Genie

/-! ## Decoding of messages -/

/-- C8. When the token is obtained and the completion endpoint answers with
status 200 and a body that decodes to `res`: `Chat` fails with the error
`empty response` exactly when `res` has no choice; with at least one choice it
returns the content of the first one, whatever the later ones are. -/
theorem Chat_choices_spec (c : Client) (env : Env) (messages : List Message)
    (email cunetId token status body : String) (res : ChatCompletionResponse)
    (htoken : (getToken c env email cunetId).result = .ok token)
    (hresp : env.completion (completionCallFor c token messages)
      = .response 200 status body (.ok res)) :
    ((Chat c env messages email cunetId).result = .error "empty response" ↔ res.choices = []) ∧
    (∀ first rest, res.choices = first :: rest →
      (Chat c env messages email cunetId).result = .ok first.content) ∧
    (Chat c env messages email cunetId).completionCalls = [completionCallFor c token messages] := by
  have hchat : (Chat c env messages email cunetId).result =
      (match res.choices with
       | [] => .error "empty response"
       | first :: _ => .ok first.content) ∧
      (Chat c env messages email cunetId).completionCalls
        = [completionCallFor c token messages] := by
    unfold Chat
    simp only [htoken, hresp]
    simp
  refine ⟨?_, ?_, hchat.2⟩
  · rw [hchat.1]
    cases res.choices <;> simp
  · intro first rest hch
    rw [hchat.1, hch]

/-! ## Cache key -/

theorem handlerKey_inj (a b : String) (h : Handler.handlerKey a = Handler.handlerKey b) :
    a = b := by
  have hd := congrArg String.data h
  simp only [Handler.handlerKey, tokenKey, Handler.deriveEmail, String.data_append] at hd
  simp only [List.append_assoc] at hd
  have hl := congrArg List.length hd
  simp only [List.length_append] at hl
  have hlen : a.data.length = b.data.length := by omega
  exact String.ext (List.append_inj hd hlen).1

end Genie

namespace Handler

open Genie

/-! ## Requests without a user handle -/

theorem decodeFailure_reply (e : Failure) (msg : String → String) :
    (∃ payload, decodeFailure e msg = .response 400 payload) ∨
      ∃ p, decodeFailure e msg = .aborted p := by
  cases e with
  | error err => exact Or.inl ⟨_, rfl⟩
  | panic p => exact Or.inr ⟨p, rfl⟩

/-- Every reply that ends the reading of the request early is a status 400 or
an abort by panic. -/
theorem readRequest_error_reply (lib : Lib) (r : Request) (reply : Reply)
    (h : readRequest lib r = .error reply) :
    (∃ payload, reply = .response 400 payload) ∨ ∃ p, reply = .aborted p := by
  unfold readRequest at h
  split at h
  · split at h
    · cases h; exact Or.inl ⟨_, rfl⟩
    · split at h
      · cases h; exact decodeFailure_reply _ _
      · cases h
  · split at h
    · split at h
      · cases h; exact Or.inl ⟨_, rfl⟩
      · dsimp only at h
        split at h
        · rename_i reply2 hdec
          cases h
          split at hdec
          · split at hdec
            · cases hdec; exact Or.inl ⟨_, rfl⟩
            · split at hdec
              · cases hdec; exact decodeFailure_reply _ _
              · cases hdec
          · cases hdec
        · cases h
    · cases h; exact Or.inl ⟨_, rfl⟩

/-- A POST request from which the handler reads an empty user handle is never
passed on to `Chat`: the client is untouched, no call is issued, and the reply
is a status 400 unless decoding the messages panicked. -/
theorem handle_without_cunet_id (lib : Lib) (encode : String → String) (c : Client) (env : Env)
    (r : Request) (hpost : r.method = "POST")
    (hid : ∀ ms email id, readRequest lib r = .ok (ms, email, id) → id = "") :
    (handle lib encode c env r).client = c ∧
    (handle lib encode c env r).authCalls = [] ∧
    (handle lib encode c env r).completionCalls = [] ∧
    ((∃ payload, (handle lib encode c env r).reply = .response 400 payload) ∨
      ∃ p, (handle lib encode c env r).reply = .aborted p) := by
  unfold handle
  simp only [hpost, ne_eq, not_true_eq_false, if_false]
  cases hr : readRequest lib r with
  | error reply =>
    exact ⟨rfl, rfl, rfl, readRequest_error_reply lib r reply hr⟩
  | ok v =>
    obtain ⟨ms, email, id⟩ := v
    have := hid ms email id hr
    subst this
    exact ⟨rfl, rfl, rfl, Or.inl ⟨_, rfl⟩⟩

/-- C9 (evaluation at the failing input). A POST request whose message list
holds the element `null`, sent as a JSON body without `cunet_id` or as the
`messages` field of a multipart form, makes `Message.UnmarshalJSON` dereference a
nil pointer: the handler is aborted by the panic and writes no status 400
(`Chat` is not reached, the client is untouched). -/
theorem handle_null_message_aborts (lib : Lib) (encode : String → String) (c : Client)
    (env : Env) (r : Request) (hpost : r.method = "POST") :
    (contains r.contentType "application/json" = true →
      lib.decodeFirstValue r.body = .ok (.obj [("messages", .arr [.null])]) →
      (handle lib encode c env r).reply = .aborted nilDereference ∧
      (handle lib encode c env r).client = c ∧
      (handle lib encode c env r).authCalls = [] ∧
      (handle lib encode c env r).completionCalls = []) ∧
    (contains r.contentType "application/json" = false →
      contains r.contentType "multipart/form-data" = true →
      ∀ form, r.form = .ok form → form.value "cunet_id" = "" → form.value "messages" ≠ "" →
      lib.parseValue (form.value "messages") = .ok (.arr [.null]) →
      (handle lib encode c env r).reply = .aborted nilDereference ∧
      (handle lib encode c env r).client = c ∧
      (handle lib encode c env r).authCalls = [] ∧
      (handle lib encode c env r).completionCalls = []) := by
  have hm : keyMatches "messages" "messages" = true := by decide
  constructor
  · intro hct hbody
    have hread : readRequest lib r = .error (.aborted nilDereference) := by
      simp [readRequest, hct, hbody, decodeChatRequest, matching, hm, decodeMessagesMembers,
        decodeMessageSlice, decodeSlice, decodeElems, Slice.nil, Message.UnmarshalJSON,
        decodeFailure]
    simp [handle, hpost, hread]
  · intro hj hct form hform _ hmsg hparse
    have hread : readRequest lib r = .error (.aborted nilDereference) := by
      simp [readRequest, hj, hct, hform, hmsg, hparse, decodeMessages, decodeMessageSlice,
        decodeSlice, decodeElems, Slice.nil, Message.UnmarshalJSON, decodeFailure]
    simp [handle, hpost, hread]

/-- The handler on the JSON body `Sample.nullMessageBody`. -/
theorem handle_null_message_aborts_witness :
    Sample.request.method = "POST" ∧
    contains Sample.request.contentType "application/json" = true ∧
    (handle Sample.lib id Sample.client Sample.env Sample.request).reply
      = .aborted nilDereference :=
  ⟨rfl, by decide,
   ((handle_null_message_aborts Sample.lib id Sample.client Sample.env Sample.request rfl).1
      (by decide) rfl).1⟩

end Handler


namespace Genie

open Handler

/-! ## Statements at concrete inputs -/

/-- A lookup at time 0 in a store holding a record that expires at time 10, a
lookup in an empty store, and a lookup at time 10 in the first store. -/
theorem getToken_cache_spec_witness :
    (∃ data, Sample.cached.tokens (tokenKey (deriveEmail "a") "a") = some data ∧
      (getToken Sample.cached Sample.env (deriveEmail "a") "a").result = .ok data.token ∧
      (getToken Sample.cached Sample.env (deriveEmail "a") "a").authCalls = [] ∧
      (getToken Sample.cached Sample.env (deriveEmail "a") "a").client.tokens
        = Sample.cached.tokens) ∧
    (getToken Sample.client Sample.env (deriveEmail "a") "a").authCalls
      = [authCallFor Sample.client (deriveEmail "a") "a"] ∧
    (getToken Sample.cached Sample.envAtExpiry (deriveEmail "a") "a").authCalls
      = [authCallFor Sample.cached (deriveEmail "a") "a"] :=
  ⟨(getToken_cache_spec Sample.cached Sample.env (deriveEmail "a") "a").1.1
      ⟨{ token := "old", expiresAt := 10 }, by decide, by decide⟩,
   ((getToken_cache_spec Sample.client Sample.env (deriveEmail "a") "a").2
      (Sample.client_not_hasValid _ _)).1,
   ((getToken_cache_spec Sample.cached Sample.envAtExpiry (deriveEmail "a") "a").2
      Sample.cached_not_hasValid_at_expiry).1⟩

/-- A rejected authentication on an empty store, followed by an accepted one. -/
theorem getToken_failure_spec_witness :
    authFailed (Sample.envRejecting.auth (authCallFor Sample.client (deriveEmail "a") "a")) ∧
    (getToken Sample.client Sample.envRejecting (deriveEmail "a") "a").client.tokens
      = Sample.client.tokens ∧
    (getToken (getToken Sample.client Sample.envRejecting (deriveEmail "a") "a").client
        Sample.env (deriveEmail "a") "a").result = .ok "tok" :=
  have hfail : authFailed
      (Sample.envRejecting.auth (authCallFor Sample.client (deriveEmail "a") "a")) := by
    decide
  have h := getToken_failure_spec Sample.client Sample.envRejecting (deriveEmail "a") "a"
    (Sample.client_not_hasValid _ _) hfail
  ⟨hfail, h.2.1, (h.2.2.2 Sample.env (Nat.le_refl _)).2 "200 OK" "" _ rfl⟩

/-- An accepted authentication on an empty store: the record written expires
at `0 + 1 + 4h`. -/
theorem getToken_success_spec_witness :
    (getToken Sample.client Sample.env (deriveEmail "a") "a").result = .ok "tok" ∧
    (getToken Sample.client Sample.env (deriveEmail "a") "a").client.tokens
        (tokenKey (deriveEmail "a") "a")
      = some { token := "tok", expiresAt := 0 + 1 + fourHours } :=
  have h := getToken_success_spec Sample.client Sample.env (deriveEmail "a") "a" "200 OK" ""
    { token := "tok", tokenType := "Bearer" } (Sample.client_not_hasValid _ _) rfl
  ⟨h.1, h.2.1⟩

/-- A completion with two choices returns the content of the first. -/
theorem Chat_choices_spec_witness :
    (Chat Sample.client Sample.env [] (deriveEmail "a") "a").result = .ok "hello" :=
  (Chat_choices_spec Sample.client Sample.env [] (deriveEmail "a") "a" "tok" "200 OK" ""
    { choices := [{ role := "assistant", content := "hello" },
                  { role := "assistant", content := "ignored" }] } rfl rfl).2.1 _ _ rfl

/-- C10. The key under which the handler makes `getToken` cache a token is
injective in the user handle: equal keys come from equal handles, so storing a
record under the key of one handle leaves the cache lookup of every other
handle as it was. -/
theorem handlerKey_spec (a b : String) :
    (handlerKey a = handlerKey b → a = b) ∧
    (a ≠ b → ∀ (c : Client) (data : tokenData) (now : Nat),
      cachedToken { c with tokens := (c.tokens.insert (handlerKey a) data) } now (handlerKey b)
        = cachedToken c now (handlerKey b)) := by
  refine ⟨handlerKey_inj a b, ?_⟩
  intro hne c data now
  have hk : handlerKey b ≠ handlerKey a := fun h => hne (handlerKey_inj b a h).symm
  simp [cachedToken, TokenMap.insert, hk]

/-- A record stored for the handle `alice` is not found by the lookup for `bob`. -/
theorem handlerKey_spec_witness :
    cachedToken
      { Sample.client with
        tokens := (Sample.client.tokens.insert (handlerKey "alice") ⟨"tok", 10⟩) }
      0 (handlerKey "bob") = none :=
  ((handlerKey_spec "alice" "bob").2 (by decide) Sample.client ⟨"tok", 10⟩ 0).trans rfl

end Genie

namespace Handler

open Genie

/-- One attachment after a `user` message and after an `assistant` message. -/
theorem appendPart_spec_witness :
    (∃ init l, [{ role := "user", content := [Sample.hello] }] = init ++ [l] ∧ l.role = "user" ∧
      appendPart [{ role := "user", content := [Sample.hello] }] Sample.image
        = init ++ [{ role := l.role, content := l.content ++ [Sample.image] }]) ∧
    appendPart [{ role := "assistant", content := [Sample.hello] }] Sample.image
      = [{ role := "assistant", content := [Sample.hello] }]
        ++ [{ role := "user", content := [Sample.image] }] :=
  ⟨(appendPart_spec [{ role := "user", content := [Sample.hello] }] Sample.image).1.1
      (by decide),
   (appendPart_spec [{ role := "assistant", content := [Sample.hello] }] Sample.image).2.1
      (by decide)⟩

/-- Two attachments after a `user` message and after an `assistant` message. -/
theorem appendParts_spec_witness :
    appendParts [{ role := "user", content := [Sample.hello] }] [Sample.image, Sample.file]
      = [{ role := "user", content := [Sample.hello, Sample.image, Sample.file] }] ∧
    appendParts [{ role := "assistant", content := [Sample.hello] }] [Sample.image, Sample.file]
      = [{ role := "assistant", content := [Sample.hello] },
         { role := "user", content := [Sample.image, Sample.file] }] :=
  ⟨(appendParts_spec [{ role := "user", content := [Sample.hello] }]
      [Sample.image, Sample.file] (by decide)).1 [] _ rfl rfl,
   (appendParts_spec [{ role := "assistant", content := [Sample.hello] }]
      [Sample.image, Sample.file] (by decide)).2.1 (by decide)⟩

end Handler
